import Mathlib

/-!
# Phase State Machine and Gate Validation Engine — verification development

Shallow embedding of the core of the repository:

* `scripts/gate_validator.py` — gate criteria registry, checkers, `validate_phase`,
  and the `gate-validate` CLI (`main`);
* `scripts/init_sdlc.py` — `create_state` and the `.sdlc/` layout written by `init_sdlc`;
* `scripts/orchestrate.py` — state store (`load_state`/`save_state`), phase
  transitions (`mark_started`/`mark_completed`/`add_note`), the phase walk of
  `main`, and the filesystem effects of `run_testing`.

Modelling conventions:

* A project directory is an `FS`: the list of its descendant paths (each a list
  of components, tagged file-with-text or directory) together with a `StateSlot`
  describing the persisted `.sdlc/state.json` document (absent, present but not
  parseable, or a parsed `OState`).  Python exceptions are modelled with
  `Except PyErr`; `json.JSONDecodeError` is `PyErr.jsonDecodeError`.
* `pathlib.Path.rglob(pattern)` is `p.glob("**/" ++ pattern)`: a descendant
  matches iff some suffix of its component list matches the pattern's
  components, each component by `fnmatch` (here `globMatch`; the registry's
  patterns only use the `*` and literal forms, `?` is also supported).
* Strings are compared case-sensitively as on a POSIX filesystem, matching
  `fnmatch` under `os.path.normcase = id`.
-/

/-- One record per phase inside the persisted state document
(shape produced by `create_state` in `scripts/init_sdlc.py` and mutated by
`scripts/orchestrate.py`). -/
structure PhaseRec where
  status : String
  started_at : Option String
  completed_at : Option String
  gate_passed : Bool
  notes : List String
  deriving DecidableEq, Repr

/-- The persisted `ProjectState` document stored at `.sdlc/state.json`. -/
structure OState where
  project_name : String
  created_at : String
  updated_at : String
  current_phase : String
  phases : List (String × PhaseRec)
  deriving DecidableEq, Repr

/-- A filesystem node: a directory, or a regular file with its text. -/
inductive Node where
  | dir : Node
  | file (text : String) : Node
  deriving DecidableEq, Repr

/-- The `.sdlc/state.json` document as seen by `load_state`: absent, present
but not valid JSON, or a parsed state. -/
inductive StateSlot where
  | absent : StateSlot
  | corrupt : StateSlot
  | valid (s : OState) : StateSlot
  deriving DecidableEq, Repr

/-- Python exceptions that can escape the embedded code: `json.JSONDecodeError`
from `json.load`, a `TypeError`/`IndexError` from calling a checker with
malformed arguments, and an `OSError` (`IsADirectoryError`) from `read_text`. -/
inductive PyErr where
  | jsonDecodeError : PyErr
  | argError : PyErr
  | osError : PyErr
  deriving DecidableEq, Repr

/-- A snapshot of a project directory: its descendant entries (path components
paired with the node found there) and the persisted state document. -/
structure FS where
  entries : List (List String × Node)
  state : StateSlot
  deriving DecidableEq, Repr

/-- First-match association-list lookup (Python `dict.get`; keys are unique in
all the data this file builds, and `putFile` below relies on first-match for
overwrite semantics). -/
def alist_lookup {α β : Type} [DecidableEq α] (l : List (α × β)) (key : α) : Option β :=
  match l with
  | [] => none
  | (k, v) :: rest => if k = key then some v else alist_lookup rest key

/-- `str.lower()` (ASCII-faithful; every keyword in the registry is ASCII). -/
def lowerStr (s : List Char) : List Char := s.map Char.toLower

/-- Python `needle in hay` on strings: some suffix of `hay` starts with `needle`. -/
def containsSub (needle : List Char) : List Char → Bool
  | [] => needle.isPrefixOf []
  | c :: t => needle.isPrefixOf (c :: t) || containsSub needle t

/-- `keyword.lower() in text.lower()` — case-insensitive substring test. -/
def containsCI (needle hay : String) : Bool :=
  containsSub (lowerStr needle.data) (lowerStr hay.data)

/-- `fnmatch` on one path component, with an explicit recursion budget.
`*` matches any sequence of characters, `?` any one character, anything else
itself.  Every recursive call shrinks `pattern.length + s.length`, so
`globMatch` below always supplies enough fuel. -/
def globMatchAux : Nat → List Char → List Char → Bool
  | 0, _, _ => false
  | _ + 1, [], s => s.isEmpty
  | fuel + 1, p :: ps, s =>
    if p = '*' then
      globMatchAux fuel ps s ||
        (match s with
         | [] => false
         | _ :: t => globMatchAux fuel (p :: ps) t)
    else
      match s with
      | [] => false
      | c :: t => (p = '?' || p = c) && globMatchAux fuel ps t

/-- `fnmatch(s, pattern)` for one path component. -/
def globMatch (pat s : List Char) : Bool :=
  globMatchAux (pat.length + s.length + 1) pat s

/-- Split a string at `/` (how both path arguments and glob patterns are cut
into components). -/
def splitSlash : List Char → List (List Char)
  | [] => [[]]
  | c :: cs =>
    match splitSlash cs with
    | [] => [[]]
    | g :: gs => if c = '/' then [] :: g :: gs else (c :: g) :: gs

/-- The components of a relative path argument such as `"docs/prd.md"`. -/
def pathComps (s : String) : List String :=
  (splitSlash s.data).map (fun cs => String.mk cs)

/-- The components of a glob pattern such as `".github/workflows/*.yml"`. -/
def patComps (s : String) : List (List Char) :=
  splitSlash s.data

/-- Componentwise `fnmatch` of a full pattern against a full path. -/
def compsMatch : List (List Char) → List String → Bool
  | [], [] => true
  | p :: ps, c :: cs => globMatch p c.data && compsMatch ps cs
  | _, _ => false

/-- `path` matches `**/p₁/…/pₖ`: some suffix of its components matches the
pattern components one by one (the semantics of `Path.rglob`). -/
def suffixMatch (pats : List (List Char)) : List String → Bool
  | [] => compsMatch pats []
  | c :: t => compsMatch pats (c :: t) || suffixMatch pats t

/-! ## `scripts/init_sdlc.py` -/

/-- One entry of the `PHASES` table in `scripts/init_sdlc.py`. -/
structure InitPhase where
  id : String
  name : String
  order : Nat
  deriving DecidableEq, Repr

/-- The `PHASES` list of `scripts/init_sdlc.py` (ids in lifecycle order). -/
def PHASES : List InitPhase :=
  [ ⟨"requirements", "Requirements & Planning", 1⟩,
    ⟨"development", "Development & Git", 2⟩,
    ⟨"cicd", "CI/CD Pipeline", 3⟩,
    ⟨"testing", "QA Testing", 4⟩,
    ⟨"uat", "User Acceptance Testing", 5⟩,
    ⟨"deployment", "Production Deployment", 6⟩,
    ⟨"monitoring", "Monitoring & SRE", 7⟩ ]

/-- `create_state` of `scripts/init_sdlc.py`: the initial state document, with
`now` standing for `datetime.now(timezone.utc).isoformat()`. -/
def create_state (project_name now : String) : OState :=
  { project_name := project_name
    created_at := now
    updated_at := now
    current_phase := "requirements"
    phases := PHASES.map fun phase =>
      (phase.id,
       { status := "pending"
         started_at := none
         completed_at := none
         gate_passed := false
         notes := [] }) }

/-- The checklist items of `create_phase_checklist` in `scripts/init_sdlc.py`. -/
def checklist_items (id : String) : List String :=
  match id with
  | "requirements" =>
      [ "Define project vision and goals", "Identify stakeholders",
        "Write PRD (Product Requirements Document)",
        "Create user stories with acceptance criteria",
        "Assess technical feasibility", "Define success metrics",
        "Get stakeholder sign-off" ]
  | "development" =>
      [ "Set up repository and branching strategy",
        "Configure development environment", "Install pre-commit hooks",
        "Implement core features", "Write inline documentation",
        "Conduct code reviews", "Maintain clean commit history" ]
  | "cicd" =>
      [ "Set up CI pipeline (build + test)",
        "Configure linting and formatting checks",
        "Add security scanning (SAST)", "Set up artifact publishing",
        "Configure branch protection rules", "Add deployment pipeline",
        "Test pipeline end-to-end" ]
  | "testing" =>
      [ "Write unit tests (>80% coverage target)",
        "Write integration tests for critical paths", "Set up E2E test suite",
        "Run regression tests", "Conduct performance/load testing",
        "Fix all critical/high severity bugs", "Generate test coverage report" ]
  | "uat" =>
      [ "Create UAT test plan from user stories", "Set up UAT environment",
        "Brief stakeholders on testing scope", "Execute UAT test cases",
        "Collect and triage feedback", "Fix blocking issues",
        "Obtain stakeholder sign-off" ]
  | "deployment" =>
      [ "Create deployment runbook", "Set up feature flags (if applicable)",
        "Configure deployment strategy", "Run pre-deployment smoke tests",
        "Execute deployment", "Run post-deployment smoke tests",
        "Verify rollback procedure works" ]
  | "monitoring" =>
      [ "Set up application metrics", "Configure log aggregation",
        "Define SLOs and error budgets", "Create alerting rules",
        "Set up dashboards", "Document incident response procedure",
        "Conduct game day / chaos testing" ]
  | _ => []

/-- `create_phase_checklist`: the markdown checklist text for one phase. -/
def create_phase_checklist (phase : InitPhase) : String :=
  let head := "# Phase " ++ toString phase.order ++ ": " ++ phase.name ++ "\n"
  String.intercalate "\n"
    (head :: (checklist_items phase.id).map (fun item => "- [ ] " ++ item)) ++ "\n"

/-- `f"{phase['order']:02d}-{phase['id']}.md"` for orders 1–9. -/
def checklist_filename (phase : InitPhase) : String :=
  "0" ++ toString phase.order ++ "-" ++ phase.id ++ ".md"

/-- The directory entries written by `init_sdlc` (`scripts/init_sdlc.py`,
`init_sdlc` body, no template): `.sdlc/`, `.sdlc/phases/`, `.sdlc/state.json`
and the seven phase checklists.  The text of `state.json` is modelled by the
`FS.state` slot, so the entry's text field is left empty. -/
def init_entries : List (List String × Node) :=
  [ ([".sdlc"], Node.dir),
    ([".sdlc", "phases"], Node.dir),
    ([".sdlc", "state.json"], Node.file "") ]
  ++ PHASES.map fun phase =>
      ([".sdlc", "phases", checklist_filename phase],
       Node.file (create_phase_checklist phase))

/-- The project directory right after `init_sdlc(project_name, output_dir)` on
an empty `output_dir` (no template): only the `.sdlc` tree exists and the state
document parses to `create_state project_name now`. -/
def init_sdlc_fs (project_name now : String) : FS :=
  { entries := init_entries
    state := StateSlot.valid (create_state project_name now) }

/-! ## `scripts/gate_validator.py` — checkers -/

/-- `PHASE_ORDER`, identical in `scripts/gate_validator.py` and
`scripts/orchestrate.py`. -/
def PHASE_ORDER : List String :=
  ["requirements", "development", "cicd", "testing", "uat", "deployment", "monitoring"]

/-- `load_state`, identical in `scripts/gate_validator.py` and
`scripts/orchestrate.py`: `None` when `.sdlc/state.json` is absent, the parsed
document otherwise; `json.load` raises on unparseable bytes. -/
def load_state (fs : FS) : Except PyErr (Option OState) :=
  match fs.state with
  | StateSlot.absent => Except.ok none
  | StateSlot.corrupt => Except.error PyErr.jsonDecodeError
  | StateSlot.valid s => Except.ok (some s)

/-- `check_file`: `(project_dir / filepath).exists()` — true whenever any node
(file or directory) sits at the path. -/
def check_file (fs : FS) (filepath : String) : Bool :=
  (alist_lookup fs.entries (pathComps filepath)).isSome

/-- `check_dir`: `(project_dir / dirpath).is_dir()`. -/
def check_dir (fs : FS) (dirpath : String) : Bool :=
  match alist_lookup fs.entries (pathComps dirpath) with
  | some Node.dir => true
  | _ => false

/-- `check_file_pattern`: `len(list(project_dir.rglob(pattern))) > 0`. -/
def check_file_pattern (fs : FS) (pattern : String) : Bool :=
  fs.entries.any fun e => suffixMatch (patComps pattern) e.1

/-- `check_any_file`: any of the patterns has a match. -/
def check_any_file (fs : FS) (patterns : List String) : Bool :=
  patterns.any fun p => check_file_pattern fs p

/-- `check_content`: `False` when the path is absent, otherwise a
case-insensitive substring test on `read_text()` (which raises
`IsADirectoryError` on a directory). -/
def check_content (fs : FS) (filepath keyword : String) : Except PyErr Bool :=
  match alist_lookup fs.entries (pathComps filepath) with
  | none => Except.ok false
  | some Node.dir => Except.error PyErr.osError
  | some (Node.file text) => Except.ok (containsCI keyword text)

/-- The notes of one phase as read by `check_state_note`:
`state.get("phases", {}).get(phase, {}).get("notes", [])`. -/
def phase_notes (st : OState) (phase : String) : List String :=
  match alist_lookup st.phases phase with
  | some pr => pr.notes
  | none => []

/-- `check_state_note`: `False` when no state is persisted, otherwise a
case-insensitive keyword search over the phase's notes; a corrupt state file
makes `load_state` raise and the exception propagates. -/
def check_state_note (fs : FS) (phase keyword : String) : Except PyErr Bool :=
  match load_state fs with
  | Except.error e => Except.error e
  | Except.ok none => Except.ok false
  | Except.ok (some st) =>
      Except.ok ((phase_notes st phase).any fun note => containsCI keyword note)

/-! ## `scripts/gate_validator.py` — registry and validation -/

/-- A Python value appearing as a checker argument in the registry: a string
or a list of strings. -/
inductive PyVal where
  | s (v : String) : PyVal
  | strList (v : List String) : PyVal
  deriving DecidableEq, Repr

/-- One registry entry `(description, check_function_name, *args)`.  The
checker is referenced by name, as in the source's dynamic dispatch. -/
structure Criterion where
  description : String
  checker : String
  args : List PyVal
  deriving DecidableEq, Repr

/-- The `GATE_CRITERIA` table (`dict.get(phase, [])` lookup). -/
def GATE_CRITERIA (phase : String) : List Criterion :=
  match phase with
  | "requirements" =>
      [ ⟨"PRD document exists", "check_file", [PyVal.s "docs/prd.md"]⟩,
        ⟨"User stories defined", "check_file_pattern", [PyVal.s "docs/user-stories*"]⟩,
        ⟨"Acceptance criteria present in PRD", "check_content",
          [PyVal.s "docs/prd.md", PyVal.s "acceptance criteria"]⟩,
        ⟨"Technical feasibility assessed", "check_file_pattern",
          [PyVal.s "docs/tech-feasibility*"]⟩,
        ⟨"Stakeholder sign-off recorded", "check_state_note",
          [PyVal.s "requirements", PyVal.s "sign-off"]⟩ ]
  | "development" =>
      [ ⟨"Git repository initialized", "check_dir", [PyVal.s ".git"]⟩,
        ⟨"Branching strategy documented", "check_file_pattern", [PyVal.s "*git*workflow*"]⟩,
        ⟨"Pre-commit hooks configured", "check_file", [PyVal.s ".pre-commit-config.yaml"]⟩,
        ⟨"README exists", "check_file", [PyVal.s "README.md"]⟩,
        ⟨"Code review process defined", "check_state_note",
          [PyVal.s "development", PyVal.s "code review"]⟩ ]
  | "cicd" =>
      [ ⟨"CI pipeline config exists", "check_any_file",
          [PyVal.strList [".github/workflows/*.yml", ".github/workflows/*.yaml",
                          ".gitlab-ci.yml", "Jenkinsfile"]]⟩,
        ⟨"Build step defined", "check_state_note", [PyVal.s "cicd", PyVal.s "build"]⟩,
        ⟨"Test step in pipeline", "check_state_note", [PyVal.s "cicd", PyVal.s "test"]⟩,
        ⟨"Linting configured", "check_any_file",
          [PyVal.strList [".eslintrc*", ".flake8", "pyproject.toml", ".prettierrc*"]]⟩,
        ⟨"Pipeline tested end-to-end", "check_state_note",
          [PyVal.s "cicd", PyVal.s "verified"]⟩ ]
  | "testing" =>
      [ ⟨"Unit tests exist", "check_file_pattern", [PyVal.s "*test*"]⟩,
        ⟨"Test coverage report generated", "check_any_file",
          [PyVal.strList ["coverage/*", "htmlcov/*", ".coverage"]]⟩,
        ⟨"Coverage meets threshold (>80%)", "check_state_note",
          [PyVal.s "testing", PyVal.s "coverage"]⟩,
        ⟨"Critical bugs resolved", "check_state_note",
          [PyVal.s "testing", PyVal.s "bugs resolved"]⟩,
        ⟨"Test plan documented", "check_file_pattern", [PyVal.s "docs/test-plan*"]⟩ ]
  | "uat" =>
      [ ⟨"UAT plan created", "check_file_pattern", [PyVal.s "docs/uat*"]⟩,
        ⟨"UAT environment available", "check_state_note",
          [PyVal.s "uat", PyVal.s "environment"]⟩,
        ⟨"All UAT cases executed", "check_state_note",
          [PyVal.s "uat", PyVal.s "executed"]⟩,
        ⟨"Stakeholder sign-off obtained", "check_state_note",
          [PyVal.s "uat", PyVal.s "sign-off"]⟩ ]
  | "deployment" =>
      [ ⟨"Deployment runbook exists", "check_file_pattern", [PyVal.s "docs/deployment*"]⟩,
        ⟨"Rollback procedure documented", "check_file_pattern", [PyVal.s "docs/rollback*"]⟩,
        ⟨"Smoke tests defined", "check_file_pattern", [PyVal.s "*smoke*"]⟩,
        ⟨"Deployment strategy chosen", "check_state_note",
          [PyVal.s "deployment", PyVal.s "strategy"]⟩,
        ⟨"Pre-deployment checklist complete", "check_state_note",
          [PyVal.s "deployment", PyVal.s "checklist"]⟩ ]
  | "monitoring" =>
      [ ⟨"Monitoring configured", "check_state_note",
          [PyVal.s "monitoring", PyVal.s "configured"]⟩,
        ⟨"Alerts defined", "check_file_pattern", [PyVal.s "*alert*"]⟩,
        ⟨"SLOs documented", "check_file_pattern", [PyVal.s "docs/slo*"]⟩,
        ⟨"Incident response plan exists", "check_file_pattern", [PyVal.s "docs/incident*"]⟩,
        ⟨"Dashboard created", "check_state_note",
          [PyVal.s "monitoring", PyVal.s "dashboard"]⟩ ]
  | _ => []

/-- The `CHECKERS` dispatch table.  Each lambda reads `args[0]` (and `args[1]`
where the source does); a missing or wrongly-typed argument raises in Python
and is modelled as `PyErr.argError` (never reached from `GATE_CRITERIA`). -/
def CHECKERS_TABLE : List (String × (FS → List PyVal → Except PyErr Bool)) :=
  [ ("check_file", fun pd args =>
      match args.get? 0 with
      | some (PyVal.s p) => Except.ok (check_file pd p)
      | _ => Except.error PyErr.argError),
    ("check_dir", fun pd args =>
      match args.get? 0 with
      | some (PyVal.s p) => Except.ok (check_dir pd p)
      | _ => Except.error PyErr.argError),
    ("check_file_pattern", fun pd args =>
      match args.get? 0 with
      | some (PyVal.s p) => Except.ok (check_file_pattern pd p)
      | _ => Except.error PyErr.argError),
    ("check_any_file", fun pd args =>
      match args.get? 0 with
      | some (PyVal.strList ps) => Except.ok (check_any_file pd ps)
      | _ => Except.error PyErr.argError),
    ("check_content", fun pd args =>
      match args.get? 0, args.get? 1 with
      | some (PyVal.s fp), some (PyVal.s kw) => check_content pd fp kw
      | _, _ => Except.error PyErr.argError),
    ("check_state_note", fun pd args =>
      match args.get? 0, args.get? 1 with
      | some (PyVal.s ph), some (PyVal.s kw) => check_state_note pd ph kw
      | _, _ => Except.error PyErr.argError) ]

/-- `CHECKERS.get(checker_name)`. -/
def CHECKERS (name : String) : Option (FS → List PyVal → Except PyErr Bool) :=
  alist_lookup CHECKERS_TABLE name

/-- The loop body of `validate_phase` for one criterion:
`if checker and checker(project_dir, checker_args)` — an unknown checker name
short-circuits to a failed criterion without calling anything; a known checker
is called and its exceptions propagate. -/
def checkCriterion (c : Criterion) (fs : FS) : Except PyErr Bool :=
  match CHECKERS c.checker with
  | none => Except.ok false
  | some checker => checker fs c.args

/-- The `for criterion in criteria` loop of `validate_phase`: classify each
description into `passed`/`failed` in declaration order; a raised exception
aborts the loop. -/
def evalCriteria (criteria : List Criterion) (fs : FS) :
    Except PyErr (List String × List String) :=
  match criteria with
  | [] => Except.ok ([], [])
  | c :: rest =>
    match checkCriterion c fs with
    | Except.error e => Except.error e
    | Except.ok b =>
      match evalCriteria rest fs with
      | Except.error e => Except.error e
      | Except.ok (p, f) =>
        if b then Except.ok (c.description :: p, f)
        else Except.ok (p, c.description :: f)

/-- `validate_phase(phase, project_dir) -> (passed, failed)`. -/
def validate_phase (phase : String) (fs : FS) :
    Except PyErr (List String × List String) :=
  evalCriteria (GATE_CRITERIA phase) fs

/-- The status line chosen by `print_gate_result` (gate_validator.py:182-186). -/
def print_gate_result_status (failed : List String) : String :=
  if failed.isEmpty then "✅ PASSED" else "❌ BLOCKED"

/-- The per-phase loop of `main` in `scripts/gate_validator.py`: validate each
addressed phase and remember its `(passed, failed)` lists. -/
def runPhases (phases : List String) (fs : FS) :
    Except PyErr (List (String × List String × List String)) :=
  match phases with
  | [] => Except.ok []
  | ph :: rest =>
    match validate_phase ph fs with
    | Except.error e => Except.error e
    | Except.ok (p, f) =>
      match runPhases rest fs with
      | Except.error e => Except.error e
      | Except.ok others => Except.ok ((ph, p, f) :: others)

/-- `main` of `scripts/gate_validator.py`: `phases` is `PHASE_ORDER` under
`--all` and `[args.phase]` otherwise; `overall_pass` is cleared by any phase
with a non-empty `failed` list and drives `sys.exit(0 if overall_pass else 1)`. -/
def gateValidatorMain (phases : List String) (fs : FS) : Except PyErr Nat :=
  match runPhases phases fs with
  | Except.error e => Except.error e
  | Except.ok results =>
      Except.ok (if results.all (fun r => r.2.2.isEmpty) then 0 else 1)

/-- Decidable equality on `Except`, used to evaluate concrete runs. -/
instance {ε α : Type} [DecidableEq ε] [DecidableEq α] : DecidableEq (Except ε α) := fun a b =>
  match a, b with
  | Except.ok x, Except.ok y =>
      if h : x = y then isTrue (by rw [h]) else isFalse (fun hh => by cases hh; exact h rfl)
  | Except.error x, Except.error y =>
      if h : x = y then isTrue (by rw [h]) else isFalse (fun hh => by cases hh; exact h rfl)
  | Except.ok _, Except.error _ => isFalse (fun hh => by cases hh)
  | Except.error _, Except.ok _ => isFalse (fun hh => by cases hh)

/-! ## `scripts/orchestrate.py` — state store and transitions -/

/-- `save_state(project_dir, state, dry_run)`: a no-op under `--dry-run`;
otherwise stamps `updated_at = now` and overwrites `.sdlc/state.json` with the
JSON dump of the state (for this schema — strings, booleans, nulls and string
lists — the JSON round trip is the identity, so the store keeps the structured
document; the `.sdlc` directory is present at every call site, having been
created by `init_sdlc`). -/
def save_state (fs : FS) (state : OState) (now : String) (dry_run : Bool) : FS :=
  if dry_run then fs
  else { fs with state := StateSlot.valid { state with updated_at := now } }

/-- Apply `f` to the record of phase `p` (`state["phases"][phase]` update). -/
def updRec (phs : List (String × PhaseRec)) (p : String) (f : PhaseRec → PhaseRec) :
    List (String × PhaseRec) :=
  phs.map fun e => if e.1 = p then (e.1, f e.2) else e

/-- `add_note`: append the note to the phase's list unless already present. -/
def add_note (s : OState) (phase note : String) : OState :=
  { s with phases := updRec s.phases phase fun pr =>
      { pr with notes := if note ∈ pr.notes then pr.notes else pr.notes ++ [note] } }

/-- `mark_started`: status `in_progress`, stamp `started_at`, move
`current_phase` to this phase. -/
def mark_started (s : OState) (phase now : String) : OState :=
  { s with
    phases := updRec s.phases phase fun pr =>
      { pr with status := "in_progress", started_at := some now }
    current_phase := phase }

/-- `mark_completed`: status `completed`, stamp `completed_at`, set
`gate_passed := true`. -/
def mark_completed (s : OState) (phase now : String) : OState :=
  { s with phases := updRec s.phases phase fun pr =>
      { pr with status := "completed", completed_at := some now, gate_passed := true } }

/-! ## `scripts/orchestrate.py` — the phase walk of `main` (lines 674-723)

The walk is modelled over the in-memory state (each `save_state` call persists
exactly the state being threaded, so the persisted document tracks it).  The
interactive inputs are oracles: `noteOracle` gives the notes a phase handler
records (each handler only ever calls `add_note` on its own phase),
`gate ph n` the verdict of the n-th gate check of phase `ph` (`run_gate`), and
`act ph n` the operator's choice after the n-th failed check.  The
retry/fix/skip/quit sub-loop has no iteration bound in the source, so it gets
a fuel parameter; `none` models the run that never leaves the sub-loop (and
the `KeyError` crash on a state document missing a phase key). -/

/-- The four answers accepted after a failed gate check. -/
inductive GAction where
  | retry : GAction
  | fix : GAction
  | skip : GAction
  | quit : GAction
  deriving DecidableEq, Repr

/-- How the gate sub-loop ended: the gate passed, the operator forced
completion with `skip`, or the operator chose `quit`. -/
inductive GOutcome where
  | passed : GOutcome
  | forced : GOutcome
  | quitted : GOutcome
  deriving DecidableEq, Repr

/-- The `while not gate_passed` sub-loop: re-check the gate until it passes or
the operator picks `skip`/`quit`; `retry` and `fix` just loop. -/
def gateLoop (gate : Nat → Bool) (act : Nat → GAction) : Nat → Nat → Option GOutcome
  | attempt, 0 =>
    if gate attempt then some GOutcome.passed
    else match act attempt with
      | GAction.skip => some GOutcome.forced
      | GAction.quit => some GOutcome.quitted
      | _ => none
  | attempt, fuel + 1 =>
    if gate attempt then some GOutcome.passed
    else match act attempt with
      | GAction.skip => some GOutcome.forced
      | GAction.quit => some GOutcome.quitted
      | _ => gateLoop gate act (attempt + 1) fuel

/-- A phase handler's effect on the state document: it records its notes on
its own phase (every `PHASE_HANDLERS` entry only calls `add_note(state, p, _)`
for its own `p`; their filesystem effects are modelled separately). -/
def runHandler (noteOracle : String → List String) (phase : String) (s : OState) : OState :=
  (noteOracle phase).foldl (fun acc n => add_note acc phase n) s

/-- `state["current_phase"] = PHASE_ORDER[idx + 1]` — performed only when a
next phase exists (orchestrate.py:721-723). -/
def advance_current (s : OState) : List String → OState
  | [] => s
  | next :: _ => { s with current_phase := next }

/-- How the walk ended: all phases processed, or the operator quit. -/
inductive WalkExit where
  | finished : WalkExit
  | quitEarly : WalkExit
  deriving DecidableEq, Repr

/-- The `for idx in range(start_idx, len(PHASE_ORDER))` walk
(orchestrate.py:674-723) over the still-to-visit phase list.  Returns the
final state, the phases whose handler ran (equivalently: whose gate was
checked — both happen exactly on the non-skipped phases, in order), and how
the walk ended. -/
def walkPhases (noteOracle : String → List String) (gate : String → Nat → Bool)
    (act : String → Nat → GAction) (now : String) (fuel : Nat) :
    OState → List String → Option (OState × List String × WalkExit)
  | s, [] => some (s, [], WalkExit.finished)
  | s, phase :: rest =>
    match alist_lookup s.phases phase with
    | none => none
    | some pd =>
      if pd.status = "completed" ∧ pd.gate_passed = true then
        walkPhases noteOracle gate act now fuel s rest
      else
        let s2 := runHandler noteOracle phase (mark_started s phase now)
        match gateLoop (gate phase) (act phase) 0 fuel with
        | none => none
        | some GOutcome.quitted => some (s2, [phase], WalkExit.quitEarly)
        | some _ =>
          let s4 := advance_current (mark_completed s2 phase now) rest
          match walkPhases noteOracle gate act now fuel s4 rest with
          | none => none
          | some (sf, ran, ex) => some (sf, phase :: ran, ex)

/-! ## `scripts/orchestrate.py` — filesystem effects of `run_testing` -/

/-- `Path.mkdir(parents=True, exist_ok=True)` for one directory. -/
def addDir (fs : FS) (path : List String) : FS :=
  if (alist_lookup fs.entries path).isSome then fs
  else { fs with entries := fs.entries ++ [(path, Node.dir)] }

/-- Create or overwrite a regular file (first-match lookup makes the new entry
shadow an older one). -/
def putFile (fs : FS) (path : List String) (text : String) : FS :=
  { fs with entries := (path, Node.file text) :: fs.entries }

/-- The proper prefixes of a path, shortest first (its ancestor directories). -/
def properPrefixes : List String → List (List String)
  | [] => []
  | [_] => []
  | c :: rest => [c] :: (properPrefixes rest).map (fun p => c :: p)

/-- `write_file(path, content, dry_run)` (orchestrate.py:123-129): a no-op
under `--dry-run`, otherwise `path.parent.mkdir(parents=True, exist_ok=True)`
followed by `path.write_text(content)`. -/
def write_file (fs : FS) (path : List String) (text : String) (dry_run : Bool) : FS :=
  if dry_run then fs
  else putFile ((properPrefixes path).foldl addDir fs) path text

/-- The placeholder test plan written by `run_testing` Step 1. -/
def testPlanPlaceholder : String :=
  "# Test Plan\n\n## Unit Tests\n\n## Integration Tests\n\n## E2E Tests\n"

/-- The placeholder coverage note written by `run_testing` Step 3. -/
def coveragePlaceholder : String :=
  "# Run your test suite with coverage to generate a real report\n"

/-- The filesystem effects of `run_testing` (orchestrate.py:399-449).
`gen_test_plan` is the Step-1 prompt answer and `coverage_path` the Step-3
report path (blank to skip).  Collaborator subprocesses (`test_planner.py`,
`coverage_analyzer.py`) are external and never invoked under `--dry-run`
(`run_script` returns immediately), so they contribute no effect here.
Note the Step-3 `coverage_dir.mkdir(parents=True, exist_ok=True)`
(orchestrate.py:439) is NOT guarded by `dry_run`, unlike the Step-2
`tests_dir.mkdir` (orchestrate.py:419-420) and every `write_file` call. -/
def run_testing_fs (fs : FS) (dry_run : Bool) (gen_test_plan : Bool)
    (coverage_path : String) : FS :=
  let fs1 :=
    if check_file fs "docs/prd.md" ∧ gen_test_plan then fs
    else if ¬ check_file fs "docs/prd.md" then
      (if ¬ check_file fs "docs/test-plan.md" then
        write_file fs ["docs", "test-plan.md"] testPlanPlaceholder dry_run
      else fs)
    else fs
  let fs2 :=
    if ¬ (alist_lookup fs1.entries ["tests"]).isSome ∧ ¬ dry_run then
      write_file (addDir fs1 ["tests"]) ["tests", "test_placeholder.py"]
        "# Add your tests here\ndef test_placeholder():\n    assert True\n" dry_run
    else fs1
  if ¬ coverage_path.isEmpty then fs2
  else if ¬ (alist_lookup fs2.entries ["coverage"]).isSome then
    write_file (addDir fs2 ["coverage"]) ["coverage", "placeholder.txt"]
      coveragePlaceholder dry_run
  else fs2

/-- The `__main__` handler of `scripts/orchestrate.py` (lines 738-747): a
`json.JSONDecodeError` is caught, remediation (`init_sdlc.py --force`) is
printed, and the process exits 1; any other uncaught exception also makes the
interpreter exit 1. -/
def orchestrate_exit_code : Except PyErr Nat → Nat
  | Except.ok c => c
  | Except.error PyErr.jsonDecodeError => 1
  | Except.error _ => 1

/-! ## Concrete fixtures -/

/-- A freshly initialized project directory (`init_sdlc` on an empty dir). -/
def freshDemoFS : FS := init_sdlc_fs "Demo" "2025-01-01T00:00:00+00:00"

/-- The same directory with `.sdlc/state.json` overwritten by non-JSON bytes. -/
def corruptDemoFS : FS := { freshDemoFS with state := StateSlot.corrupt }

/-- The same directory with `.sdlc/state.json` deleted. -/
def absentDemoFS : FS := { freshDemoFS with state := StateSlot.absent }

/-- A completely empty project directory. -/
def emptyFS : FS := { entries := [], state := StateSlot.absent }

/-- A project directory where `docs/prd.md` exists but is a directory. -/
def dirAtPrdFS : FS :=
  { entries := [(["docs"], Node.dir), (["docs", "prd.md"], Node.dir)]
    state := StateSlot.absent }

/-! ## Lemmas about the validation loop -/

/-- The criterion's checker ran and returned `True`. -/
def criterionPasses (c : Criterion) (fs : FS) : Bool :=
  match checkCriterion c fs with
  | Except.ok true => true
  | _ => false

/-- The criterion was classified failed without an exception: its checker
returned `False` or its name is unknown. -/
def criterionFails (c : Criterion) (fs : FS) : Bool :=
  match checkCriterion c fs with
  | Except.ok false => true
  | _ => false

/-- A successful `validate_phase` loop computes exactly the order-preserving
partition of the criteria list by checker outcome. -/
lemma evalCriteria_ok_spec {fs : FS} :
    ∀ {l : List Criterion} {p f : List String},
      evalCriteria l fs = Except.ok (p, f) →
      p = (l.filter fun c => criterionPasses c fs).map (fun c => c.description)
      ∧ f = (l.filter fun c => criterionFails c fs).map (fun c => c.description)
      ∧ p.length + f.length = l.length
      ∧ ∀ d : String,
          p.count d + f.count d = (l.map fun c => c.description).count d := by
  intro l
  induction l with
  | nil =>
    intro p f h
    simp [evalCriteria] at h
    simp [h.1, h.2]
  | cons c rest ih =>
    intro p f h
    unfold evalCriteria at h
    cases hc : checkCriterion c fs with
    | error e => rw [hc] at h; cases h
    | ok b =>
      rw [hc] at h
      cases hr : evalCriteria rest fs with
      | error e => rw [hr] at h; cases h
      | ok pf =>
        obtain ⟨p2, f2⟩ := pf
        rw [hr] at h
        obtain ⟨hp2, hf2, hlen, hcnt⟩ := ih hr
        cases b with
        | true =>
          simp only [if_true] at h
          have h2 : c.description :: p2 = p ∧ f2 = f := by
            simpa using h
          obtain ⟨hp, hf⟩ := h2
          subst hp
          subst hf
          refine ⟨?_, ?_, ?_, ?_⟩
          · simp [List.filter_cons, criterionPasses, hc, hp2]
          · simp [List.filter_cons, criterionFails, hc, hf2]
          · simp only [List.length_cons]
            omega
          · intro d
            have hd := hcnt d
            by_cases hcd : d = c.description
            · subst hcd
              simp only [List.map_cons, List.count_cons, beq_self_eq_true, if_true]
              omega
            · have hbe : (d == c.description) = false := by
                simpa using hcd
              simp only [List.map_cons, List.count_cons, hbe, if_false]
              omega
        | false =>
          simp only [if_false] at h
          have h2 : p2 = p ∧ c.description :: f2 = f := by
            simpa using h
          obtain ⟨hp, hf⟩ := h2
          subst hp
          subst hf
          refine ⟨?_, ?_, ?_, ?_⟩
          · simp [List.filter_cons, criterionPasses, hc, hp2]
          · simp [List.filter_cons, criterionFails, hc, hf2]
          · simp only [List.length_cons]
            omega
          · intro d
            have hd := hcnt d
            by_cases hcd : d = c.description
            · subst hcd
              simp only [List.map_cons, List.count_cons, beq_self_eq_true, if_true]
              omega
            · have hbe : (d == c.description) = false := by
                simpa using hcd
              simp only [List.map_cons, List.count_cons, hbe, if_false]
              omega

/-- A criterion whose checker returned `False` puts its description into the
`failed` list of any successful run that contains it. -/
lemma evalCriteria_mem_failed {fs : FS} {l : List Criterion} {p f : List String}
    (h : evalCriteria l fs = Except.ok (p, f)) {c : Criterion} (hm : c ∈ l)
    (hc : checkCriterion c fs = Except.ok false) :
    c.description ∈ f := by
  obtain ⟨-, hf, -, -⟩ := evalCriteria_ok_spec h
  subst hf
  exact List.mem_map_of_mem _ (List.mem_filter.mpr ⟨hm, by simp [criterionFails, hc]⟩)

/-- An unknown checker name makes `if checker and checker(...)` short-circuit:
the criterion fails and nothing is called, so nothing can raise. -/
lemma checkCriterion_unknown {c : Criterion} (h : CHECKERS c.checker = none)
    (fs : FS) : checkCriterion c fs = Except.ok false := by
  simp [checkCriterion, h]

/-- Splicing a criterion with an unknown checker name into a criteria list
adds its description to `failed` (in position) and leaves every other
criterion's classification unchanged. -/
lemma evalCriteria_insert_unknown {fs : FS} {c : Criterion}
    (hC : CHECKERS c.checker = none) :
    ∀ {l1 l2 : List Criterion} {p1 f1 p2 f2 : List String},
      evalCriteria l1 fs = Except.ok (p1, f1) →
      evalCriteria l2 fs = Except.ok (p2, f2) →
      evalCriteria (l1 ++ c :: l2) fs = Except.ok (p1 ++ p2, f1 ++ c.description :: f2) := by
  intro l1
  induction l1 with
  | nil =>
    intro l2 p1 f1 p2 f2 h1 h2
    simp [evalCriteria] at h1
    simp only [List.nil_append]
    unfold evalCriteria
    rw [checkCriterion_unknown hC fs, h2]
    simp [h1.1, h1.2]
  | cons a rest ih =>
    intro l2 p1 f1 p2 f2 h1 h2
    unfold evalCriteria at h1
    cases ha : checkCriterion a fs with
    | error e => rw [ha] at h1; cases h1
    | ok b =>
      rw [ha] at h1
      cases hr : evalCriteria rest fs with
      | error e => rw [hr] at h1; cases h1
      | ok pf =>
        obtain ⟨pr, fr⟩ := pf
        rw [hr] at h1
        have hstep := ih hr h2
        cases b with
        | true =>
          simp only [if_true] at h1
          have h3 : a.description :: pr = p1 ∧ fr = f1 := by simpa using h1
          obtain ⟨hp, hf⟩ := h3
          subst hp
          subst hf
          simp only [List.cons_append]
          unfold evalCriteria
          rw [ha, hstep]
          simp
        | false =>
          simp only [if_false] at h1
          have h3 : pr = p1 ∧ a.description :: fr = f1 := by simpa using h1
          obtain ⟨hp, hf⟩ := h3
          subst hp
          subst hf
          simp only [List.cons_append]
          unfold evalCriteria
          rw [ha, hstep]
          simp

/-- A successful `main` loop pairs each addressed phase, in order, with its
`validate_phase` output. -/
lemma runPhases_ok_spec {fs : FS} :
    ∀ {phases : List String} {rs},
      runPhases phases fs = Except.ok rs →
      rs.map (fun r => r.1) = phases
      ∧ ∀ r ∈ rs, validate_phase r.1 fs = Except.ok (r.2.1, r.2.2) := by
  intro phases
  induction phases with
  | nil =>
    intro rs h
    simp [runPhases] at h
    simp [h]
  | cons ph rest ih =>
    intro rs h
    unfold runPhases at h
    cases hv : validate_phase ph fs with
    | error e => rw [hv] at h; cases h
    | ok pf =>
      obtain ⟨p, f⟩ := pf
      rw [hv] at h
      cases hr : runPhases rest fs with
      | error e => rw [hr] at h; cases h
      | ok others =>
        rw [hr] at h
        have h2 : (ph, p, f) :: others = rs := by simpa using h
        subst h2
        obtain ⟨ihm, ihv⟩ := ih hr
        refine ⟨by simp [ihm], ?_⟩
        intro r hr2
        rcases List.mem_cons.mp hr2 with h3 | h3
        · subst h3; simpa using hv
        · exact ihv r h3

/-- With no persisted state, every note criterion evaluates to `False`
(`check_state_note`: `if not state: return False`). -/
lemma check_state_note_absent {fs : FS} (h : fs.state = StateSlot.absent)
    (ph kw : String) : check_state_note fs ph kw = Except.ok false := by
  simp [check_state_note, load_state, h]

/-- Every phase of a freshly created state document has an empty notes list. -/
lemma create_state_notes (name now ph : String) :
    phase_notes (create_state name now) ph = [] := by
  simp only [phase_notes, create_state, PHASES, List.map_cons, List.map_nil,
    alist_lookup]
  split
  · rename_i pr heq
    split_ifs at heq <;> (cases heq; rfl)
  · rfl

/-- Against a freshly initialized state document, every note criterion also
evaluates to `False`. -/
lemma check_state_note_fresh {fs : FS} {name now : String}
    (h : fs.state = StateSlot.valid (create_state name now)) (ph kw : String) :
    check_state_note fs ph kw = Except.ok false := by
  simp [check_state_note, load_state, h, create_state_notes]

/-- A value found by association-list lookup is one of the listed values. -/
lemma alist_lookup_mem {α β : Type} [DecidableEq α] :
    ∀ {l : List (α × β)} {k : α} {v : β},
      alist_lookup l k = some v → v ∈ l.map (fun e => e.2) := by
  intro l
  induction l with
  | nil => intro k v h; cases h
  | cons e rest ih =>
    intro k v h
    obtain ⟨k1, v1⟩ := e
    unfold alist_lookup at h
    by_cases hk : k1 = k
    · rw [if_pos hk] at h
      cases h
      simp
    · rw [if_neg hk] at h
      simp only [List.map_cons, List.mem_cons]
      exact Or.inr (ih h)

/-- Criterion evaluation only looks at the directory entries and at
`check_state_note`: two snapshots agreeing on both agree on every criterion. -/
lemma checkCriterion_congr {fs fs2 : FS} (he : fs.entries = fs2.entries)
    (hs : ∀ ph kw, check_state_note fs ph kw = check_state_note fs2 ph kw)
    (c : Criterion) : checkCriterion c fs = checkCriterion c fs2 := by
  have hfile : ∀ p, check_file fs p = check_file fs2 p := by
    intro p; simp [check_file, he]
  have hdir : ∀ p, check_dir fs p = check_dir fs2 p := by
    intro p; simp [check_dir, he]
  have hpat : ∀ p, check_file_pattern fs p = check_file_pattern fs2 p := by
    intro p; simp [check_file_pattern, he]
  have hany : ∀ ps, check_any_file fs ps = check_any_file fs2 ps := by
    intro ps
    unfold check_any_file
    congr 1
    funext p
    exact hpat p
  have hcont : ∀ p kw, check_content fs p kw = check_content fs2 p kw := by
    intro p kw; simp [check_content, he]
  unfold checkCriterion
  cases hC : CHECKERS c.checker with
  | none => rfl
  | some f =>
    have hf : f ∈ CHECKERS_TABLE.map (fun e => e.2) := alist_lookup_mem hC
    simp only [CHECKERS_TABLE, List.map_cons, List.map_nil, List.mem_cons,
      List.not_mem_nil, or_false] at hf
    rcases hf with h | h | h | h | h | h <;> subst h
    · cases hv : c.args[0]? with
      | none => simp [hv]
      | some v => cases v <;> simp [hv, hfile]
    · cases hv : c.args[0]? with
      | none => simp [hv]
      | some v => cases v <;> simp [hv, hdir]
    · cases hv : c.args[0]? with
      | none => simp [hv]
      | some v => cases v <;> simp [hv, hpat]
    · cases hv : c.args[0]? with
      | none => simp [hv]
      | some v => cases v <;> simp [hv, hany]
    · cases hv : c.args[0]? with
      | none => simp [hv]
      | some v =>
        cases hv2 : c.args[1]? with
        | none => cases v <;> simp [hv, hv2]
        | some v2 => cases v <;> cases v2 <;> simp [hv, hv2, hcont]
    · cases hv : c.args[0]? with
      | none => simp [hv]
      | some v =>
        cases hv2 : c.args[1]? with
        | none => cases v <;> simp [hv, hv2]
        | some v2 => cases v <;> cases v2 <;> simp [hv, hv2, hs]

/-- Pointwise-equal criterion checks give equal validation runs. -/
lemma evalCriteria_congr {fs fs2 : FS}
    (h : ∀ c, checkCriterion c fs = checkCriterion c fs2) :
    ∀ l, evalCriteria l fs = evalCriteria l fs2 := by
  intro l
  induction l with
  | nil => rfl
  | cons c rest ih =>
    unfold evalCriteria
    rw [h c, ih]

/-! ## Lemmas about the orchestrator walk -/

/-- Updating phase `q` leaves the record of any other phase unchanged. -/
lemma alist_lookup_updRec_ne {phs : List (String × PhaseRec)} {q p : String}
    (h : q ≠ p) (f : PhaseRec → PhaseRec) :
    alist_lookup (updRec phs q f) p = alist_lookup phs p := by
  induction phs with
  | nil => rfl
  | cons e rest ih =>
    obtain ⟨k, v⟩ := e
    show alist_lookup ((if k = q then (k, f v) else (k, v)) :: updRec rest q f) p
        = alist_lookup ((k, v) :: rest) p
    by_cases hkq : k = q
    · rw [if_pos hkq]
      show (if k = p then some (f v) else alist_lookup (updRec rest q f) p)
          = (if k = p then some v else alist_lookup rest p)
      have hkp : ¬ k = p := fun hh => h (hkq.symm.trans hh)
      rw [if_neg hkp, if_neg hkp, ih]
    · rw [if_neg hkq]
      show (if k = p then some v else alist_lookup (updRec rest q f) p)
          = (if k = p then some v else alist_lookup rest p)
      rw [ih]

/-- `add_note` on phase `q` leaves the record of any other phase unchanged. -/
lemma alist_lookup_add_note_ne {s : OState} {q p : String} (h : q ≠ p)
    (note : String) :
    alist_lookup (add_note s q note).phases p = alist_lookup s.phases p := by
  simp [add_note, alist_lookup_updRec_ne h]

/-- A handler records notes only on its own phase, so other records survive. -/
lemma foldl_add_note_frame {q p : String} (h : q ≠ p) :
    ∀ (notes : List String) (s : OState),
      alist_lookup ((notes.foldl (fun acc n => add_note acc q n) s).phases) p
        = alist_lookup s.phases p := by
  intro notes
  induction notes with
  | nil => intro s; rfl
  | cons n t ih =>
    intro s
    simp only [List.foldl_cons]
    rw [ih (add_note s q n), alist_lookup_add_note_ne h]

/-- `advance_current` never touches the phase records. -/
lemma advance_current_phases (s : OState) (l : List String) :
    (advance_current s l).phases = s.phases := by
  cases l <;> rfl

/-- One non-skipped walk step only rewrites the record of the phase it
processes. -/
lemma walk_step_frame {q p : String} (h : q ≠ p) (O : String → List String)
    (now : String) (s : OState) (rest : List String) :
    alist_lookup (advance_current
        (mark_completed (runHandler O q (mark_started s q now)) q now) rest).phases p
      = alist_lookup s.phases p := by
  rw [advance_current_phases]
  unfold mark_completed runHandler mark_started
  simp only [alist_lookup_updRec_ne h]
  rw [foldl_add_note_frame h]
  simp [alist_lookup_updRec_ne h]

/-- A quitting walk step also only rewrites the record of its own phase. -/
lemma quit_step_frame {q p : String} (h : q ≠ p) (O : String → List String)
    (now : String) (s : OState) :
    alist_lookup (runHandler O q (mark_started s q now)).phases p
      = alist_lookup s.phases p := by
  unfold runHandler mark_started
  rw [foldl_add_note_frame h]
  simp [alist_lookup_updRec_ne h]

/-- The phases a walk reports as run all come from the visited list. -/
lemma walkPhases_ran_subset {O : String → List String} {G : String → Nat → Bool}
    {A : String → Nat → GAction} {now : String} {fuel : Nat} :
    ∀ {l : List String} {s : OState} {sf : OState} {ran : List String} {ex : WalkExit},
      walkPhases O G A now fuel s l = some (sf, ran, ex) → ran ⊆ l := by
  intro l
  induction l with
  | nil =>
    intro s sf ran ex h
    simp [walkPhases] at h
    simp [h.2.1]
  | cons phase rest ih =>
    intro s sf ran ex h
    cases hl : alist_lookup s.phases phase with
    | none => simp [walkPhases, hl] at h
    | some pd =>
      simp only [walkPhases, hl] at h
      by_cases hc : pd.status = "completed" ∧ pd.gate_passed = true
      · rw [if_pos hc] at h
        exact (ih h).trans (List.subset_cons_self phase rest)
      · rw [if_neg hc] at h
        cases hg : gateLoop (G phase) (A phase) 0 fuel with
        | none => rw [hg] at h; cases h
        | some oc =>
          rw [hg] at h
          cases oc with
          | quitted =>
            have h5 : some (runHandler O phase (mark_started s phase now),
                [phase], WalkExit.quitEarly) = some (sf, ran, ex) := h
            simp only [Option.some.injEq, Prod.mk.injEq] at h5
            obtain ⟨-, h6, -⟩ := h5
            subst h6
            intro x hx
            simp at hx
            simp [hx]
          | passed =>
            cases hw : walkPhases O G A now fuel
                (advance_current (mark_completed
                  (runHandler O phase (mark_started s phase now)) phase now) rest) rest with
            | none =>
              rw [hw] at h
              have h5 : (none : Option (OState × List String × WalkExit))
                  = some (sf, ran, ex) := h
              cases h5
            | some r =>
              obtain ⟨sf2, ran2, ex2⟩ := r
              rw [hw] at h
              have h5 : some (sf2, phase :: ran2, ex2) = some (sf, ran, ex) := h
              simp only [Option.some.injEq, Prod.mk.injEq] at h5
              obtain ⟨-, h6, -⟩ := h5
              subst h6
              exact List.cons_subset_cons phase (ih hw)
          | forced =>
            cases hw : walkPhases O G A now fuel
                (advance_current (mark_completed
                  (runHandler O phase (mark_started s phase now)) phase now) rest) rest with
            | none =>
              rw [hw] at h
              have h5 : (none : Option (OState × List String × WalkExit))
                  = some (sf, ran, ex) := h
              cases h5
            | some r =>
              obtain ⟨sf2, ran2, ex2⟩ := r
              rw [hw] at h
              have h5 : some (sf2, phase :: ran2, ex2) = some (sf, ran, ex) := h
              simp only [Option.some.injEq, Prod.mk.injEq] at h5
              obtain ⟨-, h6, -⟩ := h5
              subst h6
              exact List.cons_subset_cons phase (ih hw)

/-- Walking a list that does not contain phase `p` leaves the record of `p`
untouched in the final state. -/
lemma walkPhases_frame {O : String → List String} {G : String → Nat → Bool}
    {A : String → Nat → GAction} {now : String} {fuel : Nat} {p : String} :
    ∀ {l : List String}, p ∉ l →
      ∀ {s sf : OState} {ran : List String} {ex : WalkExit},
        walkPhases O G A now fuel s l = some (sf, ran, ex) →
        alist_lookup sf.phases p = alist_lookup s.phases p := by
  intro l
  induction l with
  | nil =>
    intro _ s sf ran ex h
    have h5 : some (s, ([] : List String), WalkExit.finished) = some (sf, ran, ex) := h
    simp only [Option.some.injEq, Prod.mk.injEq] at h5
    rw [← h5.1]
  | cons phase rest ih =>
    intro hnl s sf ran ex h
    have hne : phase ≠ p := fun hh => hnl (hh ▸ List.mem_cons_self phase rest)
    have hnr : p ∉ rest := fun hh => hnl (List.mem_cons_of_mem phase hh)
    cases hl : alist_lookup s.phases phase with
    | none => simp [walkPhases, hl] at h
    | some pd =>
      simp only [walkPhases, hl] at h
      by_cases hc : pd.status = "completed" ∧ pd.gate_passed = true
      · rw [if_pos hc] at h
        exact ih hnr h
      · rw [if_neg hc] at h
        cases hg : gateLoop (G phase) (A phase) 0 fuel with
        | none => rw [hg] at h; cases h
        | some oc =>
          rw [hg] at h
          cases oc with
          | quitted =>
            have h5 : some (runHandler O phase (mark_started s phase now),
                [phase], WalkExit.quitEarly) = some (sf, ran, ex) := h
            simp only [Option.some.injEq, Prod.mk.injEq] at h5
            rw [← h5.1]
            exact quit_step_frame hne O now s
          | passed =>
            cases hw : walkPhases O G A now fuel
                (advance_current (mark_completed
                  (runHandler O phase (mark_started s phase now)) phase now) rest) rest with
            | none =>
              rw [hw] at h
              have h5 : (none : Option (OState × List String × WalkExit))
                  = some (sf, ran, ex) := h
              cases h5
            | some r =>
              obtain ⟨sf2, ran2, ex2⟩ := r
              rw [hw] at h
              have h5 : some (sf2, phase :: ran2, ex2) = some (sf, ran, ex) := h
              simp only [Option.some.injEq, Prod.mk.injEq] at h5
              rw [← h5.1]
              rw [ih hnr hw]
              exact walk_step_frame hne O now s rest
          | forced =>
            cases hw : walkPhases O G A now fuel
                (advance_current (mark_completed
                  (runHandler O phase (mark_started s phase now)) phase now) rest) rest with
            | none =>
              rw [hw] at h
              have h5 : (none : Option (OState × List String × WalkExit))
                  = some (sf, ran, ex) := h
              cases h5
            | some r =>
              obtain ⟨sf2, ran2, ex2⟩ := r
              rw [hw] at h
              have h5 : some (sf2, phase :: ran2, ex2) = some (sf, ran, ex) := h
              simp only [Option.some.injEq, Prod.mk.injEq] at h5
              rw [← h5.1]
              rw [ih hnr hw]
              exact walk_step_frame hne O now s rest

/-! ## Claim theorems -/

/-- C1: for every phase id and project directory, the status printed by
`print_gate_result` is PASSED iff the `failed` list returned by
`validate_phase` is empty (no partial credit), and the `gate-validate` CLI
(`main`) exits 0 iff every addressed phase has an empty `failed` list, and 1
otherwise. -/
theorem C1_gate_verdict_iff_no_failures (fs : FS) (phases : List String) (c : Nat)
    (h : gateValidatorMain phases fs = Except.ok c) :
    (∀ ph p f, validate_phase ph fs = Except.ok (p, f) →
        (print_gate_result_status f = "✅ PASSED" ↔ f = []))
    ∧ (c = 0 ↔ ∀ ph ∈ phases, ∀ p f,
        validate_phase ph fs = Except.ok (p, f) → f = []) := by
  constructor
  · intro ph p f _
    cases f <;> simp [print_gate_result_status]
  · unfold gateValidatorMain at h
    cases hr : runPhases phases fs with
    | error e => rw [hr] at h; cases h
    | ok rs =>
      rw [hr] at h
      have h5 : (if rs.all (fun r => r.2.2.isEmpty) then 0 else 1) = c := by
        simpa using h
      obtain ⟨hmap, hval⟩ := runPhases_ok_spec hr
      constructor
      · intro hc0 ph hmem p f hv
        have hall : rs.all (fun r => r.2.2.isEmpty) = true := by
          by_contra hna
          rw [if_neg (by simpa using hna)] at h5
          omega
        have hex : ∃ r ∈ rs, r.1 = ph := by
          rw [← hmap] at hmem
          simpa using hmem
        obtain ⟨r, hrm, hr1⟩ := hex
        have hvr := hval r hrm
        rw [hr1, hv] at hvr
        have hf : f = r.2.2 := by
          have h6 : (p, f) = r.2 := by simpa using hvr
          exact congrArg Prod.snd h6
        have h7 := List.all_eq_true.mp hall r hrm
        rw [hf]
        simpa using h7
      · intro hforall
        have hall : rs.all (fun r => r.2.2.isEmpty) = true := by
          rw [List.all_eq_true]
          intro r hrm
          have hvr := hval r hrm
          have hmem : r.1 ∈ phases := by
            rw [← hmap]
            exact List.mem_map_of_mem _ hrm
          have h8 := hforall r.1 hmem r.2.1 r.2.2 hvr
          simp [h8]
        rw [if_pos hall] at h5
        omega

/-- Witness for C1 at a concrete input: on an empty project directory the CLI
addressed at `requirements` exits 1, and 1 = 0 is indeed equivalent to all
addressed phases passing (both false). -/
theorem C1_witness :
    gateValidatorMain ["requirements"] emptyFS = Except.ok 1
    ∧ ((1 : Nat) = 0 ↔ ∀ ph ∈ ["requirements"], ∀ p f,
        validate_phase ph emptyFS = Except.ok (p, f) → f = []) :=
  ⟨by decide, (C1_gate_verdict_iff_no_failures emptyFS ["requirements"] 1 (by decide)).2⟩

/-- A registry entry with a checker name outside the dispatch table, used to
exercise the unknown-checker path. -/
def unknownCrit : Criterion :=
  ⟨"Threat model reviewed", "check_threat_model", []⟩

/-- C2: a criterion whose checker name is not in `CHECKERS` is classified
failed by the `validate_phase` loop without raising (`if checker and ...`
short-circuits), and every other criterion of the phase is still evaluated
with its own classification unchanged (`validate_phase phase fs` is
`evalCriteria (GATE_CRITERIA phase) fs`; the registry itself has no unknown
names, so the loop is exercised on a criteria list containing one). -/
theorem C2_unknown_checker_fails_safely (fs : FS) (c : Criterion)
    (l1 l2 : List Criterion) (p1 f1 p2 f2 : List String)
    (hC : CHECKERS c.checker = none)
    (h1 : evalCriteria l1 fs = Except.ok (p1, f1))
    (h2 : evalCriteria l2 fs = Except.ok (p2, f2)) :
    checkCriterion c fs = Except.ok false
    ∧ evalCriteria (l1 ++ c :: l2) fs
        = Except.ok (p1 ++ p2, f1 ++ c.description :: f2) :=
  ⟨checkCriterion_unknown hC fs, evalCriteria_insert_unknown hC h1 h2⟩

/-- Witness for C2: splicing `unknownCrit` between the `requirements` and
`uat` criteria on an empty directory fails exactly the spliced criterion plus
the criteria that already failed, in order. -/
theorem C2_witness :
    CHECKERS unknownCrit.checker = none
    ∧ evalCriteria (GATE_CRITERIA "requirements") emptyFS
        = Except.ok ([], ["PRD document exists", "User stories defined",
            "Acceptance criteria present in PRD", "Technical feasibility assessed",
            "Stakeholder sign-off recorded"])
    ∧ evalCriteria (GATE_CRITERIA "uat") emptyFS
        = Except.ok ([], ["UAT plan created", "UAT environment available",
            "All UAT cases executed", "Stakeholder sign-off obtained"])
    ∧ checkCriterion unknownCrit emptyFS = Except.ok false
    ∧ evalCriteria (GATE_CRITERIA "requirements" ++ unknownCrit :: GATE_CRITERIA "uat") emptyFS
        = Except.ok (([] : List String) ++ [],
            ["PRD document exists", "User stories defined",
             "Acceptance criteria present in PRD", "Technical feasibility assessed",
             "Stakeholder sign-off recorded"]
            ++ unknownCrit.description ::
              ["UAT plan created", "UAT environment available",
               "All UAT cases executed", "Stakeholder sign-off obtained"]) :=
  ⟨rfl, by decide, by decide,
   (C2_unknown_checker_fails_safely emptyFS unknownCrit
      (GATE_CRITERIA "requirements") (GATE_CRITERIA "uat")
      [] ["PRD document exists", "User stories defined",
          "Acceptance criteria present in PRD", "Technical feasibility assessed",
          "Stakeholder sign-off recorded"]
      [] ["UAT plan created", "UAT environment available",
          "All UAT cases executed", "Stakeholder sign-off obtained"]
      rfl (by decide) (by decide)).1,
   (C2_unknown_checker_fails_safely emptyFS unknownCrit
      (GATE_CRITERIA "requirements") (GATE_CRITERIA "uat")
      [] ["PRD document exists", "User stories defined",
          "Acceptance criteria present in PRD", "Technical feasibility assessed",
          "Stakeholder sign-off recorded"]
      [] ["UAT plan created", "UAT environment available",
          "All UAT cases executed", "Stakeholder sign-off obtained"]
      rfl (by decide) (by decide)).2⟩

/-- C10: a successful `validate_phase` run partitions the phase's registry
criteria exactly: `passed` and `failed` are the order-preserving filters of
the criteria list by checker outcome, their lengths sum to the number of
registered criteria, and each description lands in the two lists exactly as
often as it is registered. -/
theorem C10_validate_phase_partitions (fs : FS) (ph : String) (p f : List String)
    (h : validate_phase ph fs = Except.ok (p, f)) :
    p = ((GATE_CRITERIA ph).filter (fun c => criterionPasses c fs)).map
          (fun c => c.description)
    ∧ f = ((GATE_CRITERIA ph).filter (fun c => criterionFails c fs)).map
          (fun c => c.description)
    ∧ p.length + f.length = (GATE_CRITERIA ph).length
    ∧ ∀ d : String,
        p.count d + f.count d = ((GATE_CRITERIA ph).map (fun c => c.description)).count d :=
  evalCriteria_ok_spec h

/-- Witness for C10: the `uat` phase on an empty directory yields the
(0, 4) partition of its 4 criteria. -/
theorem C10_witness :
    validate_phase "uat" emptyFS
      = Except.ok ([], ["UAT plan created", "UAT environment available",
          "All UAT cases executed", "Stakeholder sign-off obtained"])
    ∧ (0 : Nat) + 4 = (GATE_CRITERIA "uat").length :=
  ⟨by decide,
   (C10_validate_phase_partitions emptyFS "uat" []
      ["UAT plan created", "UAT environment available",
       "All UAT cases executed", "Stakeholder sign-off obtained"] (by decide)).2.2.1⟩

/-- C3 counterexample: on a freshly initialized, otherwise empty project
directory, the claim requires an empty `passed` list for every phase — but the
`testing` phase's `Unit tests exist` criterion (glob `*test*`, evaluated with
`Path.rglob`) matches the checklist file `.sdlc/phases/04-testing.md` that
`init_sdlc` itself just wrote, so `passed` is non-empty. -/
theorem C3_counterexample :
    validate_phase "testing" freshDemoFS
      = Except.ok (["Unit tests exist"],
          ["Test coverage report generated", "Coverage meets threshold (>80%)",
           "Critical bugs resolved", "Test plan documented"])
    ∧ (["Unit tests exist"] : List String) ≠ [] :=
  ⟨by decide, by decide⟩

/-- C3 (amended): on a freshly initialized, otherwise empty project directory,
every phase has a non-empty `failed` list, and `passed` is empty for every
phase except `testing`, where exactly the `Unit tests exist` criterion is
pre-satisfied (its `*test*` glob matches the `.sdlc/phases/04-testing.md`
checklist written by `init_sdlc`). -/
theorem C3_fresh_init_validation (ph : String) (h : ph ∈ PHASE_ORDER) :
    ∃ p f, validate_phase ph freshDemoFS = Except.ok (p, f) ∧ f ≠ []
      ∧ (ph = "testing" → p = ["Unit tests exist"])
      ∧ (ph ≠ "testing" → p = []) := by
  have h2 : ph ∈ ["requirements", "development", "cicd", "testing", "uat",
      "deployment", "monitoring"] := h
  fin_cases h2
  · exact ⟨[], ["PRD document exists", "User stories defined",
      "Acceptance criteria present in PRD", "Technical feasibility assessed",
      "Stakeholder sign-off recorded"], by decide, by decide,
      fun hh => absurd hh (by decide), fun _ => rfl⟩
  · exact ⟨[], ["Git repository initialized", "Branching strategy documented",
      "Pre-commit hooks configured", "README exists", "Code review process defined"],
      by decide, by decide, fun hh => absurd hh (by decide), fun _ => rfl⟩
  · exact ⟨[], ["CI pipeline config exists", "Build step defined",
      "Test step in pipeline", "Linting configured", "Pipeline tested end-to-end"],
      by decide, by decide, fun hh => absurd hh (by decide), fun _ => rfl⟩
  · exact ⟨["Unit tests exist"], ["Test coverage report generated",
      "Coverage meets threshold (>80%)", "Critical bugs resolved", "Test plan documented"],
      by decide, by decide, fun _ => rfl, fun hh => absurd rfl hh⟩
  · exact ⟨[], ["UAT plan created", "UAT environment available",
      "All UAT cases executed", "Stakeholder sign-off obtained"],
      by decide, by decide, fun hh => absurd hh (by decide), fun _ => rfl⟩
  · exact ⟨[], ["Deployment runbook exists", "Rollback procedure documented",
      "Smoke tests defined", "Deployment strategy chosen",
      "Pre-deployment checklist complete"],
      by decide, by decide, fun hh => absurd hh (by decide), fun _ => rfl⟩
  · exact ⟨[], ["Monitoring configured", "Alerts defined", "SLOs documented",
      "Incident response plan exists", "Dashboard created"],
      by decide, by decide, fun hh => absurd hh (by decide), fun _ => rfl⟩

/-- Witness for the amended C3 at the `requirements` phase. -/
theorem C3_witness :
    "requirements" ∈ PHASE_ORDER
    ∧ ∃ p f, validate_phase "requirements" freshDemoFS = Except.ok (p, f) ∧ f ≠ []
        ∧ ("requirements" = "testing" → p = ["Unit tests exist"])
        ∧ ("requirements" ≠ "testing" → p = []) :=
  ⟨by decide, C3_fresh_init_validation "requirements" (by decide)⟩

/-- Modelled from the spec (§4.3, checker kind 1): "exact relative path exists
as a **regular file**".  Comparison definition for C4; the source's
`check_file` uses `Path.exists()` instead. -/
def exists_as_regular_file (fs : FS) (filepath : String) : Bool :=
  match alist_lookup fs.entries (pathComps filepath) with
  | some (Node.file _) => true
  | _ => false

/-- Modelled from the spec (§4.3, checker kind 2): the path exists and is a
directory. -/
def exists_as_dir (fs : FS) (dirpath : String) : Bool :=
  match alist_lookup fs.entries (pathComps dirpath) with
  | some Node.dir => true
  | _ => false

/-- C4 counterexample: on a directory where `docs/prd.md` exists but is a
directory, `check_file` (which is `Path.exists()`) returns true although the
path is not a regular file — refuting "true iff the path exists as a regular
file (false when it is a directory)". -/
theorem C4_counterexample :
    check_file dirAtPrdFS "docs/prd.md" = true
    ∧ exists_as_regular_file dirAtPrdFS "docs/prd.md" = false
    ∧ exists_as_dir dirAtPrdFS "docs/prd.md" = true :=
  ⟨by decide, by decide, by decide⟩

/-- C4 (amended): `check_file` returns true iff the path exists at all —
whether as a regular file or as a directory (`Path.exists()` does not
distinguish). -/
theorem C4_check_file_is_exists (fs : FS) (p : String) :
    check_file fs p = (exists_as_regular_file fs p || exists_as_dir fs p) := by
  unfold check_file exists_as_regular_file exists_as_dir
  cases alist_lookup fs.entries (pathComps p) with
  | none => rfl
  | some n => cases n <;> rfl

/-- C5 counterexample: with no persisted state, the `gate-validate` CLI does
not surface the missing state at all — it evaluates every gate exactly as it
would against a freshly initialized all-pending state (same per-phase results)
and its exit code 1 arises from ordinary gate failure, not from a
missing-state error. -/
theorem C5_counterexample :
    runPhases PHASE_ORDER absentDemoFS = runPhases PHASE_ORDER freshDemoFS
    ∧ gateValidatorMain PHASE_ORDER absentDemoFS = Except.ok 1 :=
  ⟨by decide, by decide⟩

/-- C5 (amended): when no persisted state exists the validator silently
treats the project as all-pending: every phase validates exactly as against a
freshly created state document (every note-based criterion simply false), and
whenever the CLI over all phases completes it exits 1 (each phase has a
note-based criterion, which fails), with no missing-state message. -/
theorem C5_absent_state_treated_as_pending (fs : FS) (name now : String)
    (h : fs.state = StateSlot.absent) :
    (∀ ph, validate_phase ph fs
        = validate_phase ph { fs with state := StateSlot.valid (create_state name now) })
    ∧ (∀ c, gateValidatorMain PHASE_ORDER fs = Except.ok c → c = 1) := by
  have hcongr : ∀ cr, checkCriterion cr fs
      = checkCriterion cr { fs with state := StateSlot.valid (create_state name now) } := by
    intro cr
    refine checkCriterion_congr ?_ ?_ cr
    · rfl
    · intro ph kw
      rw [check_state_note_absent h, check_state_note_fresh rfl]
  constructor
  · intro ph
    exact evalCriteria_congr hcongr (GATE_CRITERIA ph)
  · intro c hmain
    unfold gateValidatorMain at hmain
    cases hr : runPhases PHASE_ORDER fs with
    | error e => rw [hr] at hmain; cases hmain
    | ok rs =>
      rw [hr] at hmain
      obtain ⟨hmap, hval⟩ := runPhases_ok_spec hr
      have hmem : "requirements" ∈ PHASE_ORDER := by decide
      have hex : ∃ r ∈ rs, r.1 = "requirements" := by
        rw [← hmap] at hmem
        simpa using hmem
      obtain ⟨r, hrm, hr1⟩ := hex
      have hvr := hval r hrm
      rw [hr1] at hvr
      have hvr2 : evalCriteria (GATE_CRITERIA "requirements") fs
          = Except.ok (r.2.1, r.2.2) := hvr
      have hnote : checkCriterion ⟨"Stakeholder sign-off recorded", "check_state_note",
          [PyVal.s "requirements", PyVal.s "sign-off"]⟩ fs = Except.ok false := by
        unfold checkCriterion CHECKERS CHECKERS_TABLE
        simp [alist_lookup, check_state_note_absent h]
      have hmemc : (⟨"Stakeholder sign-off recorded", "check_state_note",
          [PyVal.s "requirements", PyVal.s "sign-off"]⟩ : Criterion)
          ∈ GATE_CRITERIA "requirements" := by decide
      have hfmem := evalCriteria_mem_failed hvr2 hmemc hnote
      have hne : r.2.2.isEmpty = false := by
        cases hrf : r.2.2 with
        | nil => rw [hrf] at hfmem; cases hfmem
        | cons a t => rfl
      have hall : rs.all (fun x => x.2.2.isEmpty) = false := by
        rw [List.all_eq_false]
        exact ⟨r, hrm, by simp [hne]⟩
      have hm2 : (if rs.all (fun x => x.2.2.isEmpty) then 0 else 1) = c := by
        simpa using hmain
      rw [if_neg (by simp [hall])] at hm2
      omega

/-- Witness for the amended C5 on a concrete absent-state directory. -/
theorem C5_witness :
    absentDemoFS.state = StateSlot.absent
    ∧ validate_phase "requirements" absentDemoFS
        = validate_phase "requirements"
            { absentDemoFS with
              state := StateSlot.valid (create_state "Demo" "2025-01-01T00:00:00+00:00") } :=
  ⟨rfl, (C5_absent_state_treated_as_pending absentDemoFS "Demo"
      "2025-01-01T00:00:00+00:00" rfl).1 "requirements"⟩

/-- C6 counterexample: with `.sdlc/state.json` holding non-JSON bytes, the
generic `json.JSONDecodeError` raised inside `load_state` propagates out of
`validate_phase` unhandled — there is no dedicated `CorruptState` error in the
validator. -/
theorem C6_counterexample :
    validate_phase "requirements" corruptDemoFS = Except.error PyErr.jsonDecodeError :=
  by decide

/-- C6 (amended): a corrupt state file makes `load_state` fail with the
generic JSON parse error, which escapes `check_state_note` (and hence
`validate_phase`) uncaught; only the orchestrator's `__main__` handler catches
`json.JSONDecodeError`, prints the `init_sdlc.py --force` remediation, and
exits 1. -/
theorem C6_corrupt_state_generic_error (fs : FS) (ph kw : String)
    (h : fs.state = StateSlot.corrupt) :
    load_state fs = Except.error PyErr.jsonDecodeError
    ∧ check_state_note fs ph kw = Except.error PyErr.jsonDecodeError
    ∧ orchestrate_exit_code (Except.error PyErr.jsonDecodeError) = 1 :=
  ⟨by simp [load_state, h], by simp [check_state_note, load_state, h], rfl⟩

/-- Witness for the amended C6 on a concrete corrupted directory. -/
theorem C6_witness :
    corruptDemoFS.state = StateSlot.corrupt
    ∧ load_state corruptDemoFS = Except.error PyErr.jsonDecodeError
    ∧ check_state_note corruptDemoFS "requirements" "sign-off"
        = Except.error PyErr.jsonDecodeError
    ∧ orchestrate_exit_code (Except.error PyErr.jsonDecodeError) = 1 :=
  ⟨rfl,
   (C6_corrupt_state_generic_error corruptDemoFS "requirements" "sign-off" rfl).1,
   (C6_corrupt_state_generic_error corruptDemoFS "requirements" "sign-off" rfl).2.1,
   (C6_corrupt_state_generic_error corruptDemoFS "requirements" "sign-off" rfl).2.2⟩

/-- C7 (code bug): under `--dry-run`, reaching `run_testing` Step 3 with no
coverage-report path given and no `coverage/` directory present executes
`coverage_dir.mkdir(parents=True, exist_ok=True)` (orchestrate.py:439), which
— unlike the Step-2 `tests_dir.mkdir` and every `write_file`/`save_state`
call — is not guarded by `dry_run`: the dry run creates the `coverage/`
directory, contradicting the documented "without mutating the filesystem". -/
theorem C7_dry_run_creates_coverage_dir :
    check_dir (run_testing_fs freshDemoFS true true "") "coverage" = true
    ∧ check_dir freshDemoFS "coverage" = false :=
  ⟨by decide, by decide⟩

/-- C8: `save_state(dir, state)` (non-dry-run) followed immediately by
`load_state(dir)` yields a state equal to the saved one in every field except
`updated_at`, which `save_state` refreshes to the current time before
writing. -/
theorem C8_save_load_round_trip (fs : FS) (s : OState) (now : String) :
    load_state (save_state fs s now false)
      = Except.ok (some { s with updated_at := now })
    ∧ ({ s with updated_at := now }).project_name = s.project_name
    ∧ ({ s with updated_at := now }).created_at = s.created_at
    ∧ ({ s with updated_at := now }).current_phase = s.current_phase
    ∧ ({ s with updated_at := now }).phases = s.phases
    ∧ ({ s with updated_at := now }).updated_at = now :=
  ⟨rfl, rfl, rfl, rfl, rfl, rfl⟩

/-- C9: re-running the orchestrator walk over a phase whose record is
`completed` with `gate_passed = true` is a no-op: the walk over `p :: rest`
equals the walk over `rest` alone (so `p`'s handler is not re-executed and its
gate is not re-evaluated — the returned run list collects exactly the phases
that were handled and gated), `p` is not in the run list, and `p`'s record is
unchanged in the final state; the later phases are still processed. -/
theorem C9_completed_phase_is_skipped
    (O : String → List String) (G : String → Nat → Bool) (A : String → Nat → GAction)
    (now : String) (fuel : Nat) (s : OState) (p : String) (rest : List String)
    (pd : PhaseRec)
    (hp : alist_lookup s.phases p = some pd)
    (hst : pd.status = "completed") (hg : pd.gate_passed = true)
    (hnr : p ∉ rest) :
    walkPhases O G A now fuel s (p :: rest) = walkPhases O G A now fuel s rest
    ∧ ∀ sf ran ex, walkPhases O G A now fuel s rest = some (sf, ran, ex) →
        p ∉ ran ∧ alist_lookup sf.phases p = some pd := by
  constructor
  · simp only [walkPhases, hp]
    rw [if_pos ⟨hst, hg⟩]
  · intro sf ran ex hw
    refine ⟨fun hh => hnr (walkPhases_ran_subset hw hh), ?_⟩
    rw [walkPhases_frame hnr hw, hp]

/-- The state used by the C9 witness: `deployment` already completed with its
gate passed, `monitoring` still pending. -/
def exWalkState : OState :=
  { project_name := "Demo"
    created_at := "2025-01-01T00:00:00+00:00"
    updated_at := "2025-01-01T00:00:00+00:00"
    current_phase := "deployment"
    phases := [("deployment",
                ⟨"completed", some "2025-01-01T00:00:00+00:00",
                 some "2025-01-01T00:00:00+00:00", true, []⟩),
               ("monitoring", ⟨"pending", none, none, false, []⟩)] }

/-- The completed record of `deployment` in `exWalkState`. -/
def exPd : PhaseRec :=
  ⟨"completed", some "2025-01-01T00:00:00+00:00",
   some "2025-01-01T00:00:00+00:00", true, []⟩

/-- Oracle fixtures for the C9 witness: no notes recorded, gate passes on the
first check, operator always answers retry. -/
def exNotes : String → List String := fun _ => []

/-- Gate oracle for the C9 witness. -/
def exGate : String → Nat → Bool := fun _ _ => true

/-- Operator-action oracle for the C9 witness. -/
def exActs : String → Nat → GAction := fun _ _ => GAction.retry

/-- Witness for C9: resuming over `[deployment, monitoring]` with
`deployment` already completed equals the walk over `[monitoring]` alone. -/
theorem C9_witness :
    alist_lookup exWalkState.phases "deployment" = some exPd
    ∧ exPd.status = "completed"
    ∧ exPd.gate_passed = true
    ∧ ("deployment" : String) ∉ ["monitoring"]
    ∧ walkPhases exNotes exGate exActs "T2" 0 exWalkState ["deployment", "monitoring"]
        = walkPhases exNotes exGate exActs "T2" 0 exWalkState ["monitoring"] :=
  ⟨by decide, rfl, rfl, by decide,
   (C9_completed_phase_is_skipped exNotes exGate exActs "T2" 0 exWalkState
      "deployment" ["monitoring"] exPd (by decide) rfl rfl (by decide)).1⟩
